import Mathlib

/-!
Verification of the Trezor hardware-wallet driver (`hw/src/trezor/mod.rs`).

Bytes are modelled as `Nat` (always reduced mod 256 where the source masks),
byte strings as `List Nat`, fallible calls as an explicit result type, and
Rust panics (out-of-range slicing, `H256::from_slice` on a wrong-sized slice,
checked integer overflow) as a distinct `panic` outcome.
-/

namespace Trezor

/-- `TREZOR_VID` from the source. -/
def TREZOR_VID : Nat := 0x534c

/-- `TREZOR_PIDS` from the source. -/
def TREZOR_PIDS : List Nat := [0x0001]

/-- `ETH_DERIVATION_PATH` from the source. -/
def ETH_DERIVATION_PATH : List Nat := [0x8000002C, 0x8000003C, 0x80000000, 0]

/-- `ETC_DERIVATION_PATH` from the source. -/
def ETC_DERIVATION_PATH : List Nat := [0x8000002C, 0x8000003D, 0x80000000, 0]

/-- `KeyPath` from the source. -/
inductive KeyPath
  | Ethereum
  | EthereumClassic
deriving DecidableEq

/-- The `Error` enum from the source.  `Usb` carries the `hidapi` error
string, `ClosedDevice` the device path. -/
inductive Error
  | Protocol (s : String)
  | Usb (s : String)
  | KeyNotFound
  | UserCancel
  | BadMessageType
  | SerdeError
  | ClosedDevice (path : String)
deriving DecidableEq

/-- Result of a fallible driver call (Rust `Result<_, Error>`). -/
inductive HwRes (α : Type)
  | ok (a : α)
  | error (e : Error)
deriving DecidableEq

/-- Result of one opener invocation (Rust `Result<R, &'static str>`). -/
inductive ORes (α : Type)
  | ok (a : α)
  | err (s : String)
deriving DecidableEq

/-- Outcome of a call that may also panic (slicing out of range,
`H256::from_slice` on a wrong-sized slice, checked arithmetic overflow). -/
inductive Outcome (α : Type)
  | ok (a : α)
  | err (e : Error)
  | panic (msg : String)
deriving DecidableEq

/-- Modelled from the spec: the protobuf message-type enumeration is an
external collaborator (the spec's out-of-scope "message type enumeration");
only the variants the driver uses are modelled, with the wire ids of the
Trezor protocol documentation cited by the source header. -/
inductive MessageType
  | Failure
  | PinMatrixAck
  | Cancel
  | ButtonRequest
  | ButtonAck
  | EthereumGetAddress
  | EthereumAddress
  | EthereumSignTx
  | EthereumTxRequest
  | EthereumTxAck
deriving DecidableEq

/-- The numeric wire id of a message type (`*msg_type as u16`). -/
def MessageType.toId : MessageType → Nat
  | .Failure => 3
  | .PinMatrixAck => 19
  | .Cancel => 20
  | .ButtonRequest => 26
  | .ButtonAck => 27
  | .EthereumGetAddress => 56
  | .EthereumAddress => 57
  | .EthereumSignTx => 58
  | .EthereumTxRequest => 59
  | .EthereumTxAck => 60

/-- Modelled from the spec: `MessageType::from_i32`, the partial inverse of
the wire-id assignment, `none` on ids outside the enumeration. -/
def MessageType.fromI32 : Nat → Option MessageType
  | 3 => some .Failure
  | 19 => some .PinMatrixAck
  | 20 => some .Cancel
  | 26 => some .ButtonRequest
  | 27 => some .ButtonAck
  | 56 => some .EthereumGetAddress
  | 57 => some .EthereumAddress
  | 58 => some .EthereumSignTx
  | 59 => some .EthereumTxRequest
  | 60 => some .EthereumTxAck
  | _ => none

/-! ## Minimal big-endian bytes and the external RLP integer encoder -/

/-- Fuel-driven big-endian digit extraction (fuel ≥ the number is enough). -/
def minimalBEAux : Nat → Nat → List Nat
  | 0, _ => []
  | f + 1, n => if n = 0 then [] else minimalBEAux f (n / 256) ++ [n % 256]

/-- The minimal big-endian unsigned byte representation of an integer
(empty for zero): the encoding the spec sentence describes. -/
def minimalBE (n : Nat) : List Nat := minimalBEAux n n

/-- Modelled from the spec: the generic RLP integer encoder (`rlp::encode`
on a 256-bit integer), an external collaborator of the driver.  The
leading-zero-stripped big-endian bytes are emitted as an RLP string: a
single byte below 0x80 stands alone, anything else gets a `0x80 + len`
length prefix. -/
def rlpEncode (n : Nat) : List Nat :=
  let bytes := minimalBE n
  if bytes.length = 1 ∧ bytes.headD 0 < 128 then bytes
  else (128 + bytes.length) :: bytes

/-- The bytes the driver places in an integer field of the sign request:
`rlp::encode(&x)[1..]` (source lines 280–283). -/
def trezorField (n : Nat) : List Nat := (rlpEncode n).drop 1

/-! ## Transaction data and the sign request -/

/-- `TransactionInfo` fields used by `sign_transaction`. -/
structure TransactionInfo where
  nonce : Nat
  gas_price : Nat
  gas_limit : Nat
  value : Nat
  /-- The `to` field of the source (`to` is reserved in Lean). -/
  to_addr : Option (List Nat)
  data : List Nat
  network_id : Option Nat
deriving DecidableEq

/-- The `EthereumSignTx` protobuf message as filled by `sign_transaction`. -/
structure EthereumSignTx where
  address_n : List Nat
  nonce : List Nat
  gas_limit : List Nat
  gas_price : List Nat
  value : List Nat
  /-- The `to` field of the source (`to` is reserved in Lean). -/
  to_addr : Option (List Nat)
  data_initial_chunk : List Nat
  data_length : Nat
  chain_id : Option Nat
deriving DecidableEq

/-- The request-building part of `sign_transaction` (source lines 270–298). -/
def buildSignTx (kp : KeyPath) (t : TransactionInfo) : EthereumSignTx :=
  let address_n := match kp with
    | .Ethereum => ETH_DERIVATION_PATH
    | .EthereumClassic => ETC_DERIVATION_PATH
  let first_chunk_length := min t.data.length 1024
  { address_n := address_n
    nonce := trezorField t.nonce
    gas_limit := trezorField t.gas_limit
    gas_price := trezorField t.gas_price
    value := trezorField t.value
    to_addr := t.to_addr
    data_initial_chunk := t.data.take first_chunk_length
    data_length := t.data.length % 2 ^ 32
    chain_id := t.network_id.map (fun n => n % 2 ^ 32) }

/-! ## Frame codec -/

/-- Number of zero bytes the padding loop of `send_device_message` appends
(`while data.len() % 63 > 0 { data.push(0); }`). -/
def pad63 (n : Nat) : Nat := (63 - n % 63) % 63

/-- Fuel-driven split of a byte string into 63-byte chunks. -/
def chunk63Aux : Nat → List Nat → List (List Nat)
  | 0, _ => []
  | _ + 1, [] => []
  | f + 1, a :: l => (a :: l).take 63 :: chunk63Aux f ((a :: l).drop 63)

/-- `data.chunks(63)` from the source. -/
def chunk63 (l : List Nat) : List (List Nat) := chunk63Aux l.length l

/-- `send_device_message` (source lines 347–373): magic `##`, big-endian
message type (2 bytes), big-endian payload length (4 bytes), payload,
zero-padding to a multiple of 63, then 65-byte reports each prefixed with
the report-id placeholder `0` and the `?` marker. -/
def send_device_message (msgId : Nat) (msg : List Nat) : List (List Nat) :=
  let msgSize := msg.length
  let data : List Nat :=
    35 :: 35 :: ((msgId >>> 8) % 256) :: (msgId % 256) ::
    ((msgSize >>> 24) % 256) :: ((msgSize >>> 16) % 256) ::
    ((msgSize >>> 8) % 256) :: (msgSize % 256) :: msg
  let padded := data ++ List.replicate (pad63 data.length) 0
  (chunk63 padded).map (fun c => 0 :: 63 :: c)

/-- The read loop of `read_device_response` (source lines 387–390): while
the accumulated payload is shorter than the declared size, read the next
report into the 64-byte buffer (bytes beyond the delivered count keep their
previous value) and append everything past the 1-byte marker. -/
def readLoop (msgSize : Nat) :
    List Nat → List Nat → List (List Nat) → HwRes (List Nat)
  | _, acc, [] =>
    if msgSize ≤ acc.length then .ok (acc.take msgSize)
    else .error (.Usb "read failed")
  | buf, acc, r :: rs =>
    if msgSize ≤ acc.length then .ok (acc.take msgSize)
    else
      readLoop msgSize (r ++ buf.drop r.length)
        (acc ++ (r ++ buf.drop r.length).drop 1) rs

/-- `read_device_response` (source lines 375–392).  Each list element is
the byte string one `read_timeout` call delivers; the 64-byte buffer starts
zeroed.  The first report must deliver at least 9 bytes and start with
`?`,`#`,`#`; the message type must be a known enumeration value; then the
payload is accumulated until the declared length is reached and truncated
to exactly that length. -/
def read_device_response (reports : List (List Nat)) :
    HwRes (MessageType × List Nat) :=
  match reports with
  | [] => .error (.Usb "read failed")
  | first :: rest =>
    let buf := first ++ List.replicate (64 - first.length) 0
    if first.length < 9 ∨ buf.getD 0 0 ≠ 63 ∨ buf.getD 1 0 ≠ 35 ∨
        buf.getD 2 0 ≠ 35 then
      .error (.Protocol "Unexpected wire response from Trezor Device")
    else
      match MessageType.fromI32
          ((buf.getD 3 0 % 256) * 256 + buf.getD 4 0 % 256) with
      | none => .error (.Protocol "Unexpected wire response from Trezor Device")
      | some t =>
        let msgSize := (buf.getD 5 0 % 256) * 2 ^ 24 +
          (buf.getD 6 0 % 256) * 2 ^ 16 + (buf.getD 7 0 % 256) * 2 ^ 8 +
          buf.getD 8 0 % 256
        match readLoop msgSize buf (buf.drop 9) rest with
        | .ok data => .ok (t, data)
        | .error e => .error e

/-! ## Session opener -/

/-- One observable event of the open-retry loop. -/
inductive OpenEvent
  | call (attempt : Nat)
  | sleep (ms : Nat)
deriving DecidableEq

/-- The retry loop of `open_path` (source lines 209–221), instrumented with
the trace of opener invocations and sleeps.  `f i` is the result of the
`i`-th opener invocation; `err` is the error variable, initialised to
`KeyNotFound` and overwritten by every failure. -/
def openPathRun (f : Nat → ORes α) :
    Nat → Nat → Error → HwRes α × List OpenEvent
  | 0, _, err => (.error err, [])
  | n + 1, i, _ =>
    match f i with
    | .ok r => (.ok r, [.call i])
    | .err e =>
      let rest := openPathRun f n (i + 1) (.Usb e)
      (rest.1, .call i :: .sleep 200 :: rest.2)

/-- `open_path` from the source: up to 10 attempts, 200 ms sleep after each
failure, first success returned immediately, otherwise the last failure. -/
def open_path (f : Nat → ORes α) : HwRes α :=
  (openPathRun f 10 0 .KeyNotFound).1

/-- The invocation/sleep trace of one `open_path` call. -/
def open_path_events (f : Nat → ORes α) : List OpenEvent :=
  (openPathRun f 10 0 .KeyNotFound).2

/-! ## Discovery -/

/-- `WalletInfo` from the wallet module (consumed external type). -/
structure WalletInfo where
  name : String
  manufacturer : String
  serial : String
  address : List Nat
deriving DecidableEq

/-- The fields of `hidapi::HidDeviceInfo` the driver reads. -/
structure HidDeviceInfo where
  vendor_id : Nat
  product_id : Nat
  usage_page : Nat
  path : String
  manufacturer_string : Option String
  product_string : Option String
  serial_number : Option String
deriving DecidableEq

/-- `Device` from the source. -/
structure Device where
  path : String
  info : WalletInfo
deriving DecidableEq

/-- The mutable state of `Manager` (the hidapi handle is implicit in the
device world below). -/
structure Manager where
  devices : List Device
  closed_devices : List String
  key_path : KeyPath
deriving DecidableEq

/-- The behaviour of the attached hardware as the driver observes it:
per path, the per-attempt opener outcome, the report stream answering the
address query, and the external protobuf decoding of an `EthereumAddress`
response body (`none` models a `ProtobufError`). -/
structure DeviceWorld where
  openResult : String → Nat → ORes Unit
  reports : String → List (List Nat)
  parseAddress : List Nat → Option (List Nat)

/-- `get_address` (source lines 243–261): issue the address query, then
return `some` address on an `EthereumAddress` response, `none` on any other
response type (the locked signal). -/
def get_address (w : DeviceWorld) (path : String) :
    HwRes (Option (List Nat)) :=
  match read_device_response (w.reports path) with
  | .error e => .error e
  | .ok (t, bytes) =>
    match t with
    | .EthereumAddress =>
      match w.parseAddress bytes with
      | some a => .ok (some a)
      | none => .error (.Protocol "Could not read response from Trezor Device")
    | _ => .ok none

/-- `read_device_info` (source lines 155–175): open the device with retry,
default the descriptor strings to "Unknown", then classify by the address
query: an address yields a `Device`, no address yields `ClosedDevice`
with the device path, any other error propagates. -/
def read_device_info (w : DeviceWorld) (dev : HidDeviceInfo) : HwRes Device :=
  match open_path (w.openResult dev.path) with
  | .error e => .error e
  | .ok _ =>
    let manufacturer := dev.manufacturer_string.getD "Unknown"
    let name := dev.product_string.getD "Unknown"
    let serial := dev.serial_number.getD "Unknown"
    match get_address w dev.path with
    | .ok (some addr) =>
      .ok ⟨dev.path, ⟨name, manufacturer, serial, addr⟩⟩
    | .ok none => .error (.ClosedDevice dev.path)
    | .error e => .error e

/-- The identity filter of `update_devices` (source line 140): the loop
`continue`s unless the vendor id, product id and usage page all match. -/
def keepDevice (d : HidDeviceInfo) : Bool :=
  d.vendor_id == TREZOR_VID && TREZOR_PIDS.contains d.product_id &&
    d.usage_page == 0xFF00

/-- The enumeration loop of `update_devices` (source lines 138–148),
accumulating the new active and locked lists and aborting on the first
error other than `ClosedDevice`. -/
def updateLoop (w : DeviceWorld) :
    List HidDeviceInfo → List Device → List String →
    HwRes (List Device × List String)
  | [], news, closed => .ok (news, closed)
  | d :: ds, news, closed =>
    if keepDevice d then
      match read_device_info w d with
      | .ok dev => updateLoop w ds (news ++ [dev]) closed
      | .error (.ClosedDevice p) => updateLoop w ds news (closed ++ [p])
      | .error e => .error e
    else updateLoop w ds news closed

/-- `update_devices` (source lines 132–153): run the enumeration loop over
the enumerated devices and, only on success, replace both manager lists
with the freshly computed ones and return the active count. -/
def update_devices (w : DeviceWorld) (m : Manager)
    (usbDevices : List HidDeviceInfo) : HwRes (Nat × Manager) :=
  match updateLoop w usbDevices [] [] with
  | .ok (news, closed) =>
    .ok (news.length, { m with devices := news, closed_devices := closed })
  | .error e => .error e

/-- The manager state after a refresh: Rust mutates `self` only on the
success path, so an erroring refresh leaves the previous state in place. -/
def update_devices_post (w : DeviceWorld) (m : Manager)
    (usbDevices : List HidDeviceInfo) : Manager :=
  match update_devices w m usbDevices with
  | .ok (_, m') => m'
  | .error _ => m

/-! ## Signing state machine -/

/-- The fields of the `EthereumTxRequest` protobuf response the driver
reads (`has_data_length`/`get_data_length`, `get_signature_v/r/s`; the
getters default to `0`/empty when the optional field is absent). -/
structure EthereumTxRequest where
  data_length : Option Nat
  signature_v : Nat
  signature_r : List Nat
  signature_s : List Nat
deriving DecidableEq

/-- One decoded device response as `signing_loop` matches on it; the
protobuf parse of the payload is abstracted (external codec). -/
inductive DeviceResponse
  | cancel
  | buttonRequest
  | txRequest (r : EthereumTxRequest)
  | failure
  | other
deriving DecidableEq

/-- `Signature::from_rsv(&r, &s, v)` (consumed external constructor). -/
structure Signature where
  r : List Nat
  s : List Nat
  v : Nat
deriving DecidableEq

/-- `signing_loop` (source lines 306–345), instrumented with the list of
data chunks sent in `EthereumTxAck` messages and the data still unsent at
completion.  Rust panics are modelled explicitly: `data[..len]` with
`len > data.len()` is an out-of-range slice, `H256::from_slice` demands
exactly 32 bytes, and the u32 arithmetic of the recovery-id correction
(`v - (35 + 2 * c_id as u32)` after truncating the chain id to 32 bits,
`v - 27` without a chain id) has no valid result when it overflows; the
8-bit cast of the result keeps its low byte. -/
def signing_loop (chainId : Option Nat) :
    List Nat → List DeviceResponse →
    Outcome (List (List Nat) × List Nat × Signature)
  | _, [] => .err (.Usb "read failed")
  | data, resp :: rest =>
    match resp with
    | .cancel => .err .UserCancel
    | .buttonRequest => signing_loop chainId data rest
    | .txRequest r =>
      match r.data_length with
      | some len =>
        if len ≤ data.length then
          match signing_loop chainId (data.drop len) rest with
          | .ok (chunks, leftover, sig) =>
            .ok (data.take len :: chunks, leftover, sig)
          | .err e => .err e
          | .panic m => .panic m
        else .panic "slice index out of range"
      | none =>
        if r.signature_r.length ≠ 32 then .panic "H256 from_slice length"
        else if r.signature_s.length ≠ 32 then .panic "H256 from_slice length"
        else
          match chainId with
          | some c =>
            let c32 := c % 2 ^ 32
            if 2 ^ 32 ≤ 2 * c32 then .panic "attempt to multiply with overflow"
            else if 2 ^ 32 ≤ 35 + 2 * c32 then
              .panic "attempt to add with overflow"
            else if r.signature_v < 35 + 2 * c32 then
              .panic "attempt to subtract with overflow"
            else
              .ok ([], data,
                ⟨r.signature_r, r.signature_s,
                  (r.signature_v - (35 + 2 * c32)) % 256⟩)
          | none =>
            if r.signature_v < 27 then
              .panic "attempt to subtract with overflow"
            else
              .ok ([], data,
                ⟨r.signature_r, r.signature_s, (r.signature_v - 27) % 256⟩)
    | .failure => .err (.Protocol "Last message sent failed")
    | .other => .err (.Protocol "Unexpected response from Trezor device.")

/-- The chunk-sending part of `sign_transaction` (source lines 291–303)
composed with the signing loop: the inline first chunk of the request
followed by the continuation chunks, the unsent remainder and the final
signature. -/
def sign_transaction_run (kp : KeyPath) (t : TransactionInfo)
    (resps : List DeviceResponse) :
    Outcome (List (List Nat) × List Nat × Signature) :=
  let msg := buildSignTx kp t
  let first_chunk_length := min t.data.length 1024
  match signing_loop t.network_id (t.data.drop first_chunk_length) resps with
  | .ok (chunks, leftover, sig) =>
    .ok (msg.data_initial_chunk :: chunks, leftover, sig)
  | .err e => .err e
  | .panic m => .panic m

/-- Decidable version of "every device-requested chunk length is at most
the number of still-unsent data bytes at that point of the run". -/
def requestsInRange : List Nat → List DeviceResponse → Bool
  | _, [] => true
  | data, resp :: rest =>
    match resp with
    | .buttonRequest => requestsInRange data rest
    | .txRequest r =>
      match r.data_length with
      | some len => len ≤ data.length && requestsInRange (data.drop len) rest
      | none => true
    | _ => true

/-! ## Theorems: minimal big-endian bytes vs the stripped RLP form (C1) -/

theorem minimalBEAux_zero (f : Nat) : minimalBEAux f 0 = [] := by
  cases f <;> simp [minimalBEAux]

theorem minimalBEAux_fuel :
    ∀ f g n, n ≤ f → n ≤ g → minimalBEAux f n = minimalBEAux g n := by
  intro f
  induction f with
  | zero =>
    intro g n hf _
    have : n = 0 := by omega
    subst this
    rw [minimalBEAux_zero, minimalBEAux_zero]
  | succ f ih =>
    intro g n hf hg
    rcases Nat.eq_zero_or_pos n with h0 | hpos
    · subst h0
      rw [minimalBEAux_zero, minimalBEAux_zero]
    · obtain ⟨g', rfl⟩ : ∃ g', g = g' + 1 := ⟨g - 1, by omega⟩
      simp only [minimalBEAux, if_neg (by omega : ¬n = 0)]
      have hdiv : n / 256 < n := Nat.div_lt_self hpos (by norm_num)
      rw [ih g' (n / 256) (by omega) (by omega)]

theorem minimalBE_unfold (n : Nat) :
    minimalBE n = if n = 0 then [] else minimalBE (n / 256) ++ [n % 256] := by
  rcases Nat.eq_zero_or_pos n with rfl | hpos
  · simp [minimalBE, minimalBEAux]
  · obtain ⟨m, rfl⟩ : ∃ m, n = m + 1 := ⟨n - 1, by omega⟩
    rw [if_neg (by omega)]
    show minimalBEAux (m + 1) (m + 1) = _
    simp only [minimalBEAux, if_neg (by omega : ¬m + 1 = 0)]
    have hdiv : (m + 1) / 256 < m + 1 := Nat.div_lt_self (by omega) (by norm_num)
    rw [minimalBEAux_fuel m ((m + 1) / 256) ((m + 1) / 256) (by omega) le_rfl]
    rfl

theorem minimalBE_single (n : Nat) (h1 : 0 < n) (h2 : n < 256) :
    minimalBE n = [n] := by
  rw [minimalBE_unfold, if_neg (by omega), Nat.div_eq_of_lt h2,
    Nat.mod_eq_of_lt h2]
  rfl

theorem minimalBE_ne_nil (n : Nat) (h : 0 < n) : minimalBE n ≠ [] := by
  rw [minimalBE_unfold, if_neg (by omega)]
  simp

theorem minimalBE_two_le (n : Nat) (h : 256 ≤ n) :
    2 ≤ (minimalBE n).length := by
  rw [minimalBE_unfold, if_neg (by omega)]
  have h1 : minimalBE (n / 256) ≠ [] := minimalBE_ne_nil _ (by omega)
  have h2 : 0 < (minimalBE (n / 256)).length := List.length_pos.mpr h1
  simp only [List.length_append, List.length_cons, List.length_nil]
  omega

theorem trezorField_eq_minimalBE_iff (n : Nat) :
    trezorField n = minimalBE n ↔ n = 0 ∨ 128 ≤ n := by
  rcases Nat.eq_zero_or_pos n with rfl | hpos
  · decide
  rcases Nat.lt_or_ge n 128 with h128 | h128
  · have hm : minimalBE n = [n] := minimalBE_single n hpos (by omega)
    have hr : rlpEncode n = [n] := by
      unfold rlpEncode
      rw [hm]
      rw [if_pos ⟨by simp, by simp only [List.headD_cons]; omega⟩]
    have hfield : trezorField n = [] := by
      rw [trezorField, hr]
      rfl
    constructor
    · intro h
      rw [hfield, hm] at h
      exact absurd h (by simp)
    · intro h
      omega
  rcases Nat.lt_or_ge n 256 with h256 | h256
  · have hm : minimalBE n = [n] := minimalBE_single n hpos h256
    have hr : rlpEncode n = 129 :: [n] := by
      unfold rlpEncode
      rw [hm, if_neg (by simp only [List.length_cons, List.length_nil,
        List.headD_cons]; omega)]
      simp
    have hfield : trezorField n = [n] := by
      rw [trezorField, hr]
      rfl
    rw [hfield, hm]
    exact iff_of_true rfl (Or.inr h128)
  · have hlen : 2 ≤ (minimalBE n).length := minimalBE_two_le n h256
    have hcond : ¬((minimalBE n).length = 1 ∧ (minimalBE n).headD 0 < 128) := by
      rintro ⟨hl, -⟩
      omega
    have hr : rlpEncode n = (128 + (minimalBE n).length) :: minimalBE n := by
      unfold rlpEncode
      rw [if_neg hcond]
    have hfield : trezorField n = minimalBE n := by
      rw [trezorField, hr]
      rfl
    rw [hfield]
    exact iff_of_true rfl (Or.inr (by omega))

/-- C1: in the sign-transaction request, each of the four integer fields
is the generic RLP integer encoding with its first byte removed; this
equals the minimal big-endian unsigned representation exactly when the
value is zero or at least 128 (when the RLP encoding begins with a length
prefix), so the claimed equality with the minimal big-endian form does not
hold for values 1..127. -/
theorem C1_sign_request_integer_fields (kp : KeyPath) (t : TransactionInfo)
    (n : Nat) :
    ((buildSignTx kp t).nonce = trezorField t.nonce ∧
     (buildSignTx kp t).gas_price = trezorField t.gas_price ∧
     (buildSignTx kp t).gas_limit = trezorField t.gas_limit ∧
     (buildSignTx kp t).value = trezorField t.value) ∧
    (trezorField n = minimalBE n ↔ n = 0 ∨ 128 ≤ n) := by
  exact ⟨⟨rfl, rfl, rfl, rfl⟩, trezorField_eq_minimalBE_iff n⟩

/-- C1 counterexample: for nonce 1 the request field is empty, not the
minimal big-endian representation `[1]`. -/
theorem C1_counterexample :
    (buildSignTx KeyPath.Ethereum
      { nonce := 1, gas_price := 0, gas_limit := 0, value := 0,
        to_addr := none, data := [], network_id := none }).nonce ≠
      minimalBE 1 := by decide

/-! ## Theorems: session opener (C5) -/

/-- The expected trace of a fully failing retry loop starting at attempt
`i`: each attempt is followed by a 200 ms sleep. -/
def failTrace : Nat → Nat → List OpenEvent
  | 0, _ => []
  | n + 1, i => .call i :: .sleep 200 :: failTrace n (i + 1)

theorem openPathRun_first_success (f : Nat → ORes α) (r : α) :
    ∀ k n i err, k < n → (∀ j, j < k → ∃ e, f (i + j) = .err e) →
      f (i + k) = .ok r → (openPathRun f n i err).1 = .ok r := by
  intro k
  induction k with
  | zero =>
    intro n i err hn _ hok
    obtain ⟨n', rfl⟩ : ∃ n', n = n' + 1 := ⟨n - 1, by omega⟩
    simp only [Nat.add_zero] at hok
    simp [openPathRun, hok]
  | succ k ih =>
    intro n i err hn hfail hok
    obtain ⟨n', rfl⟩ : ∃ n', n = n' + 1 := ⟨n - 1, by omega⟩
    obtain ⟨e, he⟩ := hfail 0 (by omega)
    simp only [Nat.add_zero] at he
    simp only [openPathRun, he]
    apply ih n' (i + 1) (.Usb e) (by omega)
    · intro j hj
      obtain ⟨e', he'⟩ := hfail (j + 1) (by omega)
      exact ⟨e', by rwa [show i + (j + 1) = i + 1 + j by omega] at he'⟩
    · rwa [show i + (k + 1) = i + 1 + k by omega] at hok

theorem openPathRun_all_fail (f : Nat → ORes α) (g : Nat → String) :
    ∀ n i err, 0 < n → (∀ j, j < n → f (i + j) = .err (g (i + j))) →
      openPathRun f n i err =
        (.error (.Usb (g (i + n - 1))), failTrace n i) := by
  intro n
  induction n with
  | zero => omega
  | succ n ih =>
    intro i err _ hfail
    have h0 : f i = .err (g i) := by
      have := hfail 0 (by omega)
      simpa using this
    rcases Nat.eq_zero_or_pos n with rfl | hpos
    · simp [openPathRun, h0, failTrace]
    · have hrec := ih (i + 1) (.Usb (g i)) hpos (by
        intro j hj
        have := hfail (j + 1) (by omega)
        rwa [show i + (j + 1) = i + 1 + j by omega] at this)
      simp only [openPathRun, h0, hrec, failTrace]
      rw [show i + 1 + n - 1 = i + (n + 1) - 1 by omega]

theorem openPathRun_shape (f : Nat → ORes α) :
    ∀ n i err, 0 < n →
      (∃ a, (openPathRun f n i err).1 = .ok a) ∨
      (∃ s, (openPathRun f n i err).1 = .error (.Usb s)) := by
  intro n
  induction n with
  | zero => omega
  | succ n ih =>
    intro i err _
    cases hf : f i with
    | ok a =>
      left
      exact ⟨a, by simp [openPathRun, hf]⟩
    | err e =>
      rcases Nat.eq_zero_or_pos n with rfl | hpos
      · right
        exact ⟨e, by simp [openPathRun, hf]⟩
      · rcases ih (i + 1) (.Usb e) hpos with ⟨a, ha⟩ | ⟨s, hs⟩
        · left
          exact ⟨a, by simp [openPathRun, hf, ha]⟩
        · right
          exact ⟨s, by simp [openPathRun, hf, hs]⟩

/-- C5: `open_path` returns the first opener success immediately; a
permanently failing opener is invoked exactly 10 times (attempts 0..9),
each followed by a 200 ms sleep, and the returned error is the `Usb`
wrapping of the final (10th) attempt's error; the `KeyNotFound` default is
never returned because at least one attempt always runs. -/
theorem C5_open_path_retry {α : Type} (f : Nat → ORes α) (r : α)
    (g : Nat → String) :
    (∀ k, k < 10 → (∀ j, j < k → ∃ e, f j = .err e) → f k = .ok r →
      open_path f = .ok r) ∧
    ((∀ j, j < 10 → f j = .err (g j)) →
      open_path f = .error (.Usb (g 9)) ∧
      open_path_events f = failTrace 10 0) ∧
    open_path f ≠ .error .KeyNotFound := by
  refine ⟨?_, ?_, ?_⟩
  · intro k hk hfail hok
    exact openPathRun_first_success f r k 10 0 .KeyNotFound hk
      (by simpa using hfail) (by simpa using hok)
  · intro hfail
    have := openPathRun_all_fail f g 10 0 .KeyNotFound (by omega)
      (by simpa using hfail)
    unfold open_path open_path_events
    rw [this]
    exact ⟨rfl, rfl⟩
  · intro h
    rcases openPathRun_shape f 10 0 .KeyNotFound (by omega) with
        ⟨a, ha⟩ | ⟨s, hs⟩
    · rw [open_path, ha] at h
      cases h
    · rw [open_path, hs] at h
      cases h

/-- C5 witness: an immediately succeeding opener and a permanently failing
opener, evaluated concretely. -/
theorem C5_open_path_retry_witness :
    open_path (fun _ => ORes.ok 7) = HwRes.ok 7 ∧
    open_path (fun _ => (ORes.err "bad hid" : ORes Nat)) =
      .error (.Usb "bad hid") ∧
    open_path_events (fun _ => (ORes.err "bad hid" : ORes Nat)) =
      failTrace 10 0 := by
  have h1 := (C5_open_path_retry (fun _ => ORes.ok 7) 7 (fun _ => "x")).1 0
    (by omega) (fun j hj => absurd hj (by omega)) rfl
  have h2 := (C5_open_path_retry (fun _ => (ORes.err "bad hid" : ORes Nat)) 0
    (fun _ => "bad hid")).2.1 (fun j _ => rfl)
  exact ⟨h1, h2.1, h2.2⟩

/-! ## Theorems: completion signature and recovery id (C2, C9) -/

theorem signing_loop_completion_some (cid v : Nat) (r s data : List Nat)
    (hr : r.length = 32) (hs : s.length = 32)
    (hmul : 2 * (cid % 2 ^ 32) < 2 ^ 32)
    (hadd : 35 + 2 * (cid % 2 ^ 32) < 2 ^ 32)
    (hsub : 35 + 2 * (cid % 2 ^ 32) ≤ v) :
    signing_loop (some cid) data [.txRequest ⟨none, v, r, s⟩] =
      .ok ([], data, ⟨r, s, (v - (35 + 2 * (cid % 2 ^ 32))) % 256⟩) := by
  simp only [signing_loop]
  rw [if_neg (by simp [hr]), if_neg (by simp [hs]), if_neg (by omega),
    if_neg (by omega), if_neg (by omega)]

theorem signing_loop_completion_none (v : Nat) (r s data : List Nat)
    (hr : r.length = 32) (hs : s.length = 32) (hv : 27 ≤ v) :
    signing_loop none data [.txRequest ⟨none, v, r, s⟩] =
      .ok ([], data, ⟨r, s, (v - 27) % 256⟩) := by
  simp only [signing_loop]
  rw [if_neg (by simp [hr]), if_neg (by simp [hs]), if_neg (by omega)]

/-- C2: on a completion `TxRequest` carrying (v, r, s) with 32-byte r and
s, the recovery id is `v − (35 + 2·chainId)` when a chain id was supplied
(whenever that value is in range of the u32/u8 arithmetic) and `v − 27`
otherwise, with (r, s) returned unchanged; in particular v=37,chainId=1
gives 0, v=38,chainId=1 gives 1, v=27 without chain id gives 0 and v=28
without chain id gives 1. -/
theorem C2_completion_recovery_id (cid v : Nat) (r s data : List Nat)
    (hr : r.length = 32) (hs : s.length = 32) :
    (35 + 2 * cid < 2 ^ 32 → 35 + 2 * cid ≤ v → v - (35 + 2 * cid) < 256 →
      signing_loop (some cid) data [.txRequest ⟨none, v, r, s⟩] =
        .ok ([], data, ⟨r, s, v - (35 + 2 * cid)⟩)) ∧
    (27 ≤ v → v - 27 < 256 →
      signing_loop none data [.txRequest ⟨none, v, r, s⟩] =
        .ok ([], data, ⟨r, s, v - 27⟩)) ∧
    signing_loop (some 1) data [.txRequest ⟨none, 37, r, s⟩] =
      .ok ([], data, ⟨r, s, 0⟩) ∧
    signing_loop (some 1) data [.txRequest ⟨none, 38, r, s⟩] =
      .ok ([], data, ⟨r, s, 1⟩) ∧
    signing_loop none data [.txRequest ⟨none, 27, r, s⟩] =
      .ok ([], data, ⟨r, s, 0⟩) ∧
    signing_loop none data [.txRequest ⟨none, 28, r, s⟩] =
      .ok ([], data, ⟨r, s, 1⟩) := by
  have hsome : ∀ c w, 35 + 2 * c < 2 ^ 32 → 35 + 2 * c ≤ w →
      w - (35 + 2 * c) < 256 →
      signing_loop (some c) data [.txRequest ⟨none, w, r, s⟩] =
        .ok ([], data, ⟨r, s, w - (35 + 2 * c)⟩) := by
    intro c w hc hw hfit
    have hcm : c % 2 ^ 32 = c := Nat.mod_eq_of_lt (by omega)
    have := signing_loop_completion_some c w r s data hr hs
      (by rw [hcm]; omega) (by rw [hcm]; omega) (by rw [hcm]; omega)
    rw [hcm, Nat.mod_eq_of_lt hfit] at this
    exact this
  have hnone : ∀ w, 27 ≤ w → w - 27 < 256 →
      signing_loop none data [.txRequest ⟨none, w, r, s⟩] =
        .ok ([], data, ⟨r, s, w - 27⟩) := by
    intro w hw hfit
    have := signing_loop_completion_none w r s data hr hs hw
    rwa [Nat.mod_eq_of_lt hfit] at this
  refine ⟨fun hc hw hfit => hsome cid v hc hw hfit, hnone v, ?_, ?_, ?_, ?_⟩
  · simpa using hsome 1 37 (by norm_num) (by norm_num) (by norm_num)
  · simpa using hsome 1 38 (by norm_num) (by norm_num) (by norm_num)
  · simpa using hnone 27 (by norm_num) (by norm_num)
  · simpa using hnone 28 (by norm_num) (by norm_num)

/-- C2 witness: a concrete completion response evaluated end to end. -/
theorem C2_completion_recovery_id_witness :
    signing_loop (some 1) [7]
      [.txRequest ⟨none, 38, List.replicate 32 1, List.replicate 32 2⟩] =
      .ok ([], [7],
        ⟨List.replicate 32 1, List.replicate 32 2, 1⟩) := by
  exact (C2_completion_recovery_id 1 38 (List.replicate 32 1)
    (List.replicate 32 2) [7] (by decide) (by decide)).2.2.2.1

/-- C9: the recovery-id correction runs in fixed-width unsigned
arithmetic: the chain id is truncated to 32 bits first (the outcome only
depends on `chainId mod 2^32`), the u32 subtraction `v − (35 + 2·chainId)`
(or `v − 27` with no chain id) is well defined only when `v` is at least
the subtrahend — any smaller `v` has no valid u32 result (a checked-
arithmetic panic) — and the result is truncated to 8 bits. -/
theorem C9_recovery_fixed_width (c v : Nat) (r s data : List Nat)
    (hr : r.length = 32) (hs : s.length = 32) :
    (signing_loop (some c) data [.txRequest ⟨none, v, r, s⟩] =
      signing_loop (some (c % 2 ^ 32)) data [.txRequest ⟨none, v, r, s⟩]) ∧
    (2 * (c % 2 ^ 32) < 2 ^ 32 → 35 + 2 * (c % 2 ^ 32) < 2 ^ 32 →
      35 + 2 * (c % 2 ^ 32) ≤ v →
      signing_loop (some c) data [.txRequest ⟨none, v, r, s⟩] =
        .ok ([], data, ⟨r, s, (v - (35 + 2 * (c % 2 ^ 32))) % 256⟩)) ∧
    (2 * (c % 2 ^ 32) < 2 ^ 32 → 35 + 2 * (c % 2 ^ 32) < 2 ^ 32 →
      v < 35 + 2 * (c % 2 ^ 32) →
      signing_loop (some c) data [.txRequest ⟨none, v, r, s⟩] =
        .panic "attempt to subtract with overflow") ∧
    (v < 27 →
      signing_loop none data [.txRequest ⟨none, v, r, s⟩] =
        .panic "attempt to subtract with overflow") := by
  have hmm : c % 2 ^ 32 % 2 ^ 32 = c % 2 ^ 32 := Nat.mod_mod_of_dvd c dvd_rfl
  refine ⟨?_, ?_, ?_, ?_⟩
  · simp only [signing_loop, hmm]
  · intro h1 h2 h3
    exact signing_loop_completion_some c v r s data hr hs h1 h2 h3
  · intro h1 h2 h3
    simp only [signing_loop]
    rw [if_neg (by simp [hr]), if_neg (by simp [hs]), if_neg (by omega),
      if_neg (by omega), if_pos (by omega)]
  · intro hv
    simp only [signing_loop]
    rw [if_neg (by simp [hr]), if_neg (by simp [hs]), if_pos (by omega)]

/-- C9 witness: chain id 1 with v = 36 underflows; v = 300 shows the 8-bit
truncation ((300 − 37) mod 256 = 7). -/
theorem C9_recovery_fixed_width_witness :
    signing_loop (some 1) []
      [.txRequest ⟨none, 36, List.replicate 32 0, List.replicate 32 0⟩] =
      .panic "attempt to subtract with overflow" ∧
    signing_loop (some 1) []
      [.txRequest ⟨none, 300, List.replicate 32 0, List.replicate 32 0⟩] =
      .ok ([], [], ⟨List.replicate 32 0, List.replicate 32 0, 7⟩) := by
  constructor
  · exact (C9_recovery_fixed_width 1 36 (List.replicate 32 0)
      (List.replicate 32 0) [] (by decide) (by decide)).2.2.1
      (by norm_num) (by norm_num) (by norm_num)
  · have := (C9_recovery_fixed_width 1 300 (List.replicate 32 0)
      (List.replicate 32 0) [] (by decide) (by decide)).2.1
      (by norm_num) (by norm_num) (by norm_num)
    simpa using this

/-! ## Theorems: chunk slicing and data conservation (C8, C4) -/

theorem signing_loop_no_slice_panic (chainId : Option Nat) :
    ∀ (resps : List DeviceResponse) (data : List Nat),
      requestsInRange data resps = true →
      signing_loop chainId data resps ≠ .panic "slice index out of range" := by
  intro resps
  induction resps with
  | nil =>
    intro data _ h
    simp [signing_loop] at h
  | cons resp rest ih =>
    intro data hin
    cases resp with
    | cancel => simp [signing_loop]
    | failure => simp [signing_loop]
    | other => simp [signing_loop]
    | buttonRequest =>
      simp only [signing_loop]
      exact ih data (by simpa [requestsInRange] using hin)
    | txRequest r =>
      cases hdl : r.data_length with
      | none =>
        simp only [signing_loop, hdl]
        intro h
        repeat' split at h
        all_goals
          first
            | cases h
            | exact absurd h (by decide)
      | some len =>
        have hin' : len ≤ data.length ∧
            requestsInRange (data.drop len) rest = true := by
          have := hin
          simp only [requestsInRange, hdl, Bool.and_eq_true,
            decide_eq_true_eq] at this
          exact this
        simp only [signing_loop, hdl, if_pos hin'.1]
        intro h
        have hrec := ih (data.drop len) hin'.2
        split at h
        · cases h
        · cases h
        · next m heq =>
          injection h with h'
          subst h'
          exact hrec heq

/-- C8: the device-requested chunk length indexes the remaining data with
no bound check: every run in which each requested length is at most the
still-unsent byte count proceeds without an out-of-range slice, while a
response requesting more than the remaining bytes makes the slicing
operation panic out of range (it is not surfaced as a typed error). -/
theorem C8_unchecked_chunk_slice (chainId : Option Nat) (data : List Nat)
    (resps : List DeviceResponse) :
    (requestsInRange data resps = true →
      signing_loop chainId data resps ≠ .panic "slice index out of range") ∧
    signing_loop chainId [] [.txRequest ⟨some 1, 0, [], []⟩] =
      .panic "slice index out of range" := by
  constructor
  · exact signing_loop_no_slice_panic chainId resps data
  · simp [signing_loop]

/-- C8 witness: an in-range run (request of 2 bytes against 3 remaining)
does not hit the out-of-range slice. -/
theorem C8_unchecked_chunk_slice_witness :
    signing_loop none [1, 2, 3]
      [.txRequest ⟨some 2, 0, [], []⟩] ≠
      .panic "slice index out of range" := by
  exact (C8_unchecked_chunk_slice none [1, 2, 3]
    [.txRequest ⟨some 2, 0, [], []⟩]).1 (by decide)

theorem signing_loop_conservation (chainId : Option Nat) :
    ∀ (resps : List DeviceResponse) (data : List Nat)
      (chunks : List (List Nat)) (leftover : List Nat) (sig : Signature),
      signing_loop chainId data resps = .ok (chunks, leftover, sig) →
      (chunks.map List.length).sum + leftover.length = data.length := by
  intro resps
  induction resps with
  | nil =>
    intro data chunks leftover sig h
    simp [signing_loop] at h
  | cons resp rest ih =>
    intro data chunks leftover sig h
    cases resp with
    | cancel => simp [signing_loop] at h
    | failure => simp [signing_loop] at h
    | other => simp [signing_loop] at h
    | buttonRequest =>
      simp only [signing_loop] at h
      exact ih data chunks leftover sig h
    | txRequest r =>
      cases hdl : r.data_length with
      | none =>
        simp only [signing_loop, hdl] at h
        repeat' split at h
        all_goals cases h
        all_goals simp
      | some len =>
        by_cases hlen : len ≤ data.length
        · simp only [signing_loop, hdl, if_pos hlen] at h
          split at h
          · next cs lo sg heq =>
            have hih := ih (data.drop len) cs lo sg heq
            simp only [Outcome.ok.injEq, Prod.mk.injEq] at h
            obtain ⟨h1, h2, -⟩ := h
            subst h1
            subst h2
            simp only [List.length_drop] at hih
            simp only [List.map_cons, List.sum_cons, List.length_take]
            omega
          · cases h
          · cases h
        · simp only [signing_loop, hdl, if_neg hlen] at h
          cases h

/-- C4 (amended): the inline first chunk holds `min(totalLength, 1024)`
bytes, each continuation chunk holds exactly the device-requested number
of bytes taken from the start of the still-unsent data, and for every run
reaching completion the bytes sent across the inline chunk and all
continuation chunks sum to the declared total data length minus the bytes
still unsent at completion — so they equal the total exactly when the
device's requests exhaust the remaining data (in particular always when
the total is at most 1024), but not in general. -/
theorem C4_data_conservation (kp : KeyPath) (t : TransactionInfo)
    (resps : List DeviceResponse) :
    ((buildSignTx kp t).data_initial_chunk =
        t.data.take (min t.data.length 1024) ∧
      (buildSignTx kp t).data_initial_chunk.length = min t.data.length 1024) ∧
    (∀ (data : List Nat) (rest : List DeviceResponse)
        (r : EthereumTxRequest) (len : Nat) (cs : List (List Nat))
        (lo : List Nat) (sg : Signature),
      r.data_length = some len → len ≤ data.length →
      signing_loop t.network_id (data.drop len) rest = .ok (cs, lo, sg) →
      signing_loop t.network_id data (.txRequest r :: rest) =
        .ok (data.take len :: cs, lo, sg)) ∧
    (∀ (chunks : List (List Nat)) (leftover : List Nat) (sg : Signature),
      sign_transaction_run kp t resps = .ok (chunks, leftover, sg) →
      (chunks.map List.length).sum + leftover.length = t.data.length) := by
  refine ⟨⟨rfl, by simp [buildSignTx]⟩, ?_, ?_⟩
  · intro data rest r len cs lo sg hdl hlen hrec
    simp only [signing_loop, hdl, if_pos hlen, hrec]
  · intro chunks leftover sg h
    simp only [sign_transaction_run] at h
    split at h
    · next cs lo sig heq =>
      have hcons := signing_loop_conservation t.network_id resps
        (t.data.drop (min t.data.length 1024)) cs lo sig heq
      simp only [Outcome.ok.injEq, Prod.mk.injEq] at h
      obtain ⟨h1, h2, -⟩ := h
      subst h1
      subst h2
      simp only [List.length_drop] at hcons
      simp only [List.map_cons, List.sum_cons, buildSignTx,
        List.length_take]
      omega
    · cases h
    · cases h

/-- C4 witness: a 5-byte transaction (total ≤ 1024, inline chunk sends
everything) whose completion run conserves the data length exactly. -/
theorem C4_data_conservation_witness :
    (List.map List.length
        [([1, 2, 3, 4, 5] : List Nat).take (min 5 1024)]).sum + 0 = 5 := by
  have h := (C4_data_conservation KeyPath.Ethereum
    { nonce := 0, gas_price := 0, gas_limit := 0, value := 0,
      to_addr := none, data := [1, 2, 3, 4, 5], network_id := none }
    [.txRequest ⟨none, 27, List.replicate 32 0, List.replicate 32 0⟩]).2.2
    [([1, 2, 3, 4, 5] : List Nat).take (min 5 1024)] []
    ⟨List.replicate 32 0, List.replicate 32 0, 0⟩ (by decide)
  simpa using h

set_option maxRecDepth 8000 in
/-- C4 counterexample: with 1025 data bytes and a device that completes
immediately after the inline chunk, the run reaches completion but only
1024 bytes were sent, not the declared total 1025. -/
theorem C4_counterexample :
    sign_transaction_run KeyPath.Ethereum
      { nonce := 0, gas_price := 0, gas_limit := 0, value := 0,
        to_addr := none, data := List.replicate 1025 0, network_id := none }
      [.txRequest ⟨none, 27, List.replicate 32 0, List.replicate 32 0⟩] =
      .ok ([List.replicate 1024 0], [0],
        ⟨List.replicate 32 0, List.replicate 32 0, 0⟩) ∧
    (List.map List.length [List.replicate 1024 (0 : Nat)]).sum ≠ 1025 := by
  constructor
  · have hdrop : (List.replicate 1025 (0 : Nat)).drop
        (min (List.replicate 1025 (0 : Nat)).length 1024) = [0] := by
      simp [List.drop_replicate]
    have hloop := signing_loop_completion_none 27 (List.replicate 32 0)
      (List.replicate 32 0) [0] (by simp) (by simp) (by norm_num)
    simp only [sign_transaction_run, hdrop, hloop]
    simp [buildSignTx, List.take_replicate]
  · simp [List.length_replicate]

/-! ## Theorems: discovery (C6, C7) -/

theorem readLoop_error_shape (msgSize : Nat) :
    ∀ (reports : List (List Nat)) (buf acc : List Nat) (e : Error),
      readLoop msgSize buf acc reports = .error e → e = .Usb "read failed" := by
  intro reports
  induction reports with
  | nil =>
    intro buf acc e h
    simp only [readLoop] at h
    split at h
    · cases h
    · injection h with h'
      exact h'.symm
  | cons r rs ih =>
    intro buf acc e h
    simp only [readLoop] at h
    split at h
    · cases h
    · exact ih _ _ e h

theorem read_device_response_error_shape
    (reports : List (List Nat)) (e : Error) :
    read_device_response reports = .error e →
      e = .Usb "read failed" ∨
      e = .Protocol "Unexpected wire response from Trezor Device" := by
  intro h
  cases reports with
  | nil =>
    simp only [read_device_response] at h
    injection h with h'
    exact Or.inl h'.symm
  | cons first rest =>
    simp only [read_device_response] at h
    split at h
    · injection h with h'
      exact Or.inr h'.symm
    · split at h
      · injection h with h'
        exact Or.inr h'.symm
      · split at h
        · cases h
        · next e' heq =>
          injection h with h'
          subst h'
          exact Or.inl (readLoop_error_shape _ _ _ _ _ heq)

theorem get_address_error_shape (w : DeviceWorld) (path : String)
    (e : Error) (h : get_address w path = .error e) :
    ∀ q, e ≠ .ClosedDevice q := by
  intro q
  unfold get_address at h
  split at h
  · next e' heq =>
    injection h with h'
    subst h'
    rcases read_device_response_error_shape _ _ heq with rfl | rfl <;>
      intro hc <;> cases hc
  · next t bytes heq =>
    split at h
    · split at h
      · cases h
      · injection h with h'
        subst h'
        intro hc
        cases hc
    · cases h

/-- The `Device` record a kept device contributes to the fresh active list
(`none` when it is not classified active). -/
def deviceOkRecord (w : DeviceWorld) (d : HidDeviceInfo) : Option Device :=
  match read_device_info w d with
  | .ok dev => some dev
  | .error _ => none

/-- The path a kept device contributes to the fresh locked list (`none`
when it is not classified locked). -/
def deviceLockedPath (w : DeviceWorld) (d : HidDeviceInfo) : Option String :=
  match read_device_info w d with
  | .error (.ClosedDevice p) => some p
  | _ => none

/-- A kept device whose query ends in the active or locked classification
(rather than a refresh-aborting error). -/
def deviceFine (w : DeviceWorld) (d : HidDeviceInfo) : Bool :=
  match read_device_info w d with
  | .ok _ => true
  | .error (.ClosedDevice _) => true
  | .error _ => false

theorem updateLoop_skip (w : DeviceWorld) (d : HidDeviceInfo)
    (ds : List HidDeviceInfo) (news : List Device) (closed : List String)
    (hk : keepDevice d = false) :
    updateLoop w (d :: ds) news closed = updateLoop w ds news closed := by
  simp [updateLoop, hk]

theorem updateLoop_keep_ok (w : DeviceWorld) (d : HidDeviceInfo)
    (ds : List HidDeviceInfo) (news : List Device) (closed : List String)
    (dev : Device) (hk : keepDevice d = true)
    (hrd : read_device_info w d = .ok dev) :
    updateLoop w (d :: ds) news closed =
      updateLoop w ds (news ++ [dev]) closed := by
  simp [updateLoop, hk, hrd]

theorem updateLoop_keep_locked (w : DeviceWorld) (d : HidDeviceInfo)
    (ds : List HidDeviceInfo) (news : List Device) (closed : List String)
    (p : String) (hk : keepDevice d = true)
    (hrd : read_device_info w d = .error (.ClosedDevice p)) :
    updateLoop w (d :: ds) news closed =
      updateLoop w ds news (closed ++ [p]) := by
  simp [updateLoop, hk, hrd]

theorem updateLoop_keep_err (w : DeviceWorld) (d : HidDeviceInfo)
    (ds : List HidDeviceInfo) (news : List Device) (closed : List String)
    (e : Error) (hk : keepDevice d = true)
    (hrd : read_device_info w d = .error e)
    (he : ∀ q, e ≠ .ClosedDevice q) :
    updateLoop w (d :: ds) news closed = .error e := by
  simp only [updateLoop, hk, if_true, hrd]

theorem updateLoop_filter (w : DeviceWorld) :
    ∀ (ds : List HidDeviceInfo) (news : List Device) (closed : List String),
      updateLoop w ds news closed =
        updateLoop w (ds.filter keepDevice) news closed := by
  intro ds
  induction ds with
  | nil => intro news closed; rfl
  | cons d ds ih =>
    intro news closed
    cases hk : keepDevice d with
    | false =>
      rw [updateLoop_skip w d ds news closed hk, ih,
        List.filter_cons_of_neg (by simp [hk])]
    | true =>
      rw [List.filter_cons_of_pos (by simp [hk])]
      cases hrd : read_device_info w d with
      | ok dev =>
        rw [updateLoop_keep_ok w d ds news closed dev hk hrd,
          updateLoop_keep_ok w d _ news closed dev hk hrd, ih]
      | error e =>
        cases e with
        | ClosedDevice p =>
          rw [updateLoop_keep_locked w d ds news closed p hk hrd,
            updateLoop_keep_locked w d _ news closed p hk hrd, ih]
        | Protocol s =>
          rw [updateLoop_keep_err w d ds news closed _ hk hrd
            (fun q h => by cases h),
            updateLoop_keep_err w d _ news closed _ hk hrd
            (fun q h => by cases h)]
        | Usb s =>
          rw [updateLoop_keep_err w d ds news closed _ hk hrd
            (fun q h => by cases h),
            updateLoop_keep_err w d _ news closed _ hk hrd
            (fun q h => by cases h)]
        | KeyNotFound =>
          rw [updateLoop_keep_err w d ds news closed _ hk hrd
            (fun q h => by cases h),
            updateLoop_keep_err w d _ news closed _ hk hrd
            (fun q h => by cases h)]
        | UserCancel =>
          rw [updateLoop_keep_err w d ds news closed _ hk hrd
            (fun q h => by cases h),
            updateLoop_keep_err w d _ news closed _ hk hrd
            (fun q h => by cases h)]
        | BadMessageType =>
          rw [updateLoop_keep_err w d ds news closed _ hk hrd
            (fun q h => by cases h),
            updateLoop_keep_err w d _ news closed _ hk hrd
            (fun q h => by cases h)]
        | SerdeError =>
          rw [updateLoop_keep_err w d ds news closed _ hk hrd
            (fun q h => by cases h),
            updateLoop_keep_err w d _ news closed _ hk hrd
            (fun q h => by cases h)]

theorem updateLoop_success (w : DeviceWorld) :
    ∀ (ds : List HidDeviceInfo) (news : List Device) (closed : List String),
      (∀ d ∈ ds, keepDevice d = true → deviceFine w d = true) →
      updateLoop w ds news closed =
        .ok (news ++ (ds.filter keepDevice).filterMap (deviceOkRecord w),
          closed ++ (ds.filter keepDevice).filterMap (deviceLockedPath w)) := by
  intro ds
  induction ds with
  | nil =>
    intro news closed _
    simp [updateLoop]
  | cons d ds ih =>
    intro news closed hfine
    have hfine' : ∀ d' ∈ ds, keepDevice d' = true → deviceFine w d' = true :=
      fun d' hd' => hfine d' (List.mem_cons_of_mem d hd')
    cases hk : keepDevice d with
    | false =>
      rw [updateLoop_skip w d ds news closed hk, ih news closed hfine',
        List.filter_cons_of_neg (by simp [hk])]
    | true =>
      have hf : deviceFine w d = true := hfine d (List.mem_cons_self d ds) hk
      rw [List.filter_cons_of_pos (by simp [hk])]
      cases hrd : read_device_info w d with
      | ok dev =>
        rw [updateLoop_keep_ok w d ds news closed dev hk hrd,
          ih (news ++ [dev]) closed hfine']
        have h1 : deviceOkRecord w d = some dev := by
          simp [deviceOkRecord, hrd]
        have h2 : deviceLockedPath w d = none := by
          simp [deviceLockedPath, hrd]
        simp [h1, h2]
      | error e =>
        cases e with
        | ClosedDevice p =>
          rw [updateLoop_keep_locked w d ds news closed p hk hrd,
            ih news (closed ++ [p]) hfine']
          have h1 : deviceOkRecord w d = none := by
            simp [deviceOkRecord, hrd]
          have h2 : deviceLockedPath w d = some p := by
            simp [deviceLockedPath, hrd]
          simp [h1, h2]
        | Protocol s => simp [deviceFine, hrd] at hf
        | Usb s => simp [deviceFine, hrd] at hf
        | KeyNotFound => simp [deviceFine, hrd] at hf
        | UserCancel => simp [deviceFine, hrd] at hf
        | BadMessageType => simp [deviceFine, hrd] at hf
        | SerdeError => simp [deviceFine, hrd] at hf

theorem updateLoop_abort (w : DeviceWorld) :
    ∀ (pre : List HidDeviceInfo) (d : HidDeviceInfo)
      (post : List HidDeviceInfo) (news : List Device)
      (closed : List String) (e : Error),
      keepDevice d = true → read_device_info w d = .error e →
      (∀ q, e ≠ .ClosedDevice q) →
      (∀ d' ∈ pre, keepDevice d' = true → deviceFine w d' = true) →
      updateLoop w (pre ++ d :: post) news closed = .error e := by
  intro pre
  induction pre with
  | nil =>
    intro d post news closed e hk hrd he _
    exact updateLoop_keep_err w d post news closed e hk hrd he
  | cons p pre ih =>
    intro d post news closed e hk hrd he hfine
    have hfine' : ∀ d' ∈ pre, keepDevice d' = true → deviceFine w d' = true :=
      fun d' hd' => hfine d' (List.mem_cons_of_mem p hd')
    cases hkp : keepDevice p with
    | false =>
      rw [List.cons_append, updateLoop_skip w p _ news closed hkp]
      exact ih d post news closed e hk hrd he hfine'
    | true =>
      have hf : deviceFine w p = true :=
        hfine p (List.mem_cons_self p pre) hkp
      cases hrp : read_device_info w p with
      | ok dev =>
        rw [List.cons_append, updateLoop_keep_ok w p _ news closed dev hkp hrp]
        exact ih d post (news ++ [dev]) closed e hk hrd he hfine'
      | error e' =>
        cases e' with
        | ClosedDevice q =>
          rw [List.cons_append,
            updateLoop_keep_locked w p _ news closed q hkp hrp]
          exact ih d post news (closed ++ [q]) e hk hrd he hfine'
        | Protocol s => simp [deviceFine, hrp] at hf
        | Usb s => simp [deviceFine, hrp] at hf
        | KeyNotFound => simp [deviceFine, hrp] at hf
        | UserCancel => simp [deviceFine, hrp] at hf
        | BadMessageType => simp [deviceFine, hrp] at hf
        | SerdeError => simp [deviceFine, hrp] at hf

/-- C6: refresh keeps a device only if vendor id, product id and usage
page all match (a mismatched device changes nothing); when every kept
device classifies as active or locked, the refresh succeeds with the
active list holding exactly the kept devices whose address query returned
an address (under their own path and wallet info) and the locked list
holding exactly the paths of kept devices whose query yielded no address —
a locked device contributes to the locked list and never to the active
list. -/
theorem C6_discovery_classification (w : DeviceWorld) (m : Manager)
    (ds : List HidDeviceInfo) :
    (update_devices w m ds = update_devices w m (ds.filter keepDevice)) ∧
    ((∀ d ∈ ds, keepDevice d = true → deviceFine w d = true) →
      update_devices w m ds =
        .ok (((ds.filter keepDevice).filterMap (deviceOkRecord w)).length,
          { m with
            devices := (ds.filter keepDevice).filterMap (deviceOkRecord w),
            closed_devices :=
              (ds.filter keepDevice).filterMap (deviceLockedPath w) })) ∧
    (∀ d dev, read_device_info w d = .ok dev →
      dev.path = d.path ∧ deviceOkRecord w d = some dev ∧
        deviceLockedPath w d = none) ∧
    (∀ d p, read_device_info w d = .error (.ClosedDevice p) →
      p = d.path ∧ deviceOkRecord w d = none ∧
        deviceLockedPath w d = some p) := by
  refine ⟨?_, ?_, ?_, ?_⟩
  · unfold update_devices
    rw [updateLoop_filter w ds [] []]
  · intro hfine
    unfold update_devices
    rw [updateLoop_success w ds [] [] hfine]
    simp
  · intro d dev h
    refine ⟨?_, by simp [deviceOkRecord, h], by simp [deviceLockedPath, h]⟩
    unfold read_device_info at h
    split at h
    · cases h
    · split at h
      · injection h with h'
        rw [← h']
      · cases h
      · cases h
  · intro d p h
    refine ⟨?_, by simp [deviceOkRecord, h], by simp [deviceLockedPath, h]⟩
    unfold read_device_info at h
    split at h
    · next e heq =>
      injection h with h'
      subst h'
      rcases openPathRun_shape (w.openResult d.path) 10 0 .KeyNotFound
        (by omega) with ⟨a, ha⟩ | ⟨s, hs⟩
      · rw [open_path, ha] at heq
        cases heq
      · rw [open_path, hs] at heq
        injection heq with h2
        cases h2
    · split at h
      · cases h
      · injection h with h'
        injection h' with h2
        exact h2.symm
      · next e heq =>
        injection h with h'
        subst h'
        exact absurd rfl (get_address_error_shape w d.path _ heq p)

/-- C6 witness: one mismatched device (wrong vendor id), one active device
answering the address query, one locked device answering with a Failure
message, evaluated concretely: the mismatch is dropped, the active device
lands in the active list with its path and info, the locked device's path
lands in the locked list. -/
theorem C6_discovery_classification_witness :
    update_devices
      { openResult := fun _ _ => .ok ()
        reports := fun p =>
          if p = "active" then
            [63 :: 35 :: 35 :: 0 :: 57 :: 0 :: 0 :: 0 :: 20 ::
              List.replicate 55 9]
          else
            [63 :: 35 :: 35 :: 0 :: 3 :: 0 :: 0 :: 0 :: 0 ::
              List.replicate 55 0]
        parseAddress := fun bytes => some bytes }
      { devices := [], closed_devices := ["stale"], key_path := .Ethereum }
      [{ vendor_id := 0x534c, product_id := 1, usage_page := 0xFF00,
         path := "active", manufacturer_string := some "SatoshiLabs",
         product_string := some "TREZOR", serial_number := none },
       { vendor_id := 0x1111, product_id := 1, usage_page := 0xFF00,
         path := "mismatch", manufacturer_string := none,
         product_string := none, serial_number := none },
       { vendor_id := 0x534c, product_id := 1, usage_page := 0xFF00,
         path := "locked", manufacturer_string := none,
         product_string := none, serial_number := none }] =
      .ok (1,
        { devices := [⟨"active",
            ⟨"TREZOR", "SatoshiLabs", "Unknown", List.replicate 20 9⟩⟩],
          closed_devices := ["locked"], key_path := .Ethereum }) := by
  rw [(C6_discovery_classification _ _ _).2.1 (by decide)]
  decide

/-- C7: if any kept device's query ends in an error other than the locked
signal, the whole refresh returns that error no matter which devices were
enumerated after it, and the manager's active and locked lists stay
exactly as they were; only a fully successful refresh replaces both lists,
with the freshly computed ones. -/
theorem C7_refresh_fail_fast (w : DeviceWorld) (m : Manager)
    (pre post : List HidDeviceInfo) (d : HidDeviceInfo) (e : Error) :
    (keepDevice d = true → read_device_info w d = .error e →
      (∀ q, e ≠ .ClosedDevice q) →
      (∀ d' ∈ pre, keepDevice d' = true → deviceFine w d' = true) →
      update_devices w m (pre ++ d :: post) = .error e ∧
      update_devices_post w m (pre ++ d :: post) = m) ∧
    ((∀ d' ∈ pre, keepDevice d' = true → deviceFine w d' = true) →
      update_devices_post w m pre =
        { m with
          devices := (pre.filter keepDevice).filterMap (deviceOkRecord w),
          closed_devices :=
            (pre.filter keepDevice).filterMap (deviceLockedPath w) }) := by
  constructor
  · intro hk hrd he hfine
    have habort := updateLoop_abort w pre d post [] [] e hk hrd he hfine
    have herr : update_devices w m (pre ++ d :: post) = .error e := by
      unfold update_devices
      rw [habort]
    refine ⟨herr, ?_⟩
    unfold update_devices_post
    rw [herr]
  · intro hfine
    unfold update_devices_post update_devices
    rw [updateLoop_success w pre [] [] hfine]
    simp

/-- C7 witness: a kept device whose transport read fails (empty report
stream) aborts the refresh with the Usb error, the manager state is
untouched, and a fully successful refresh over an empty enumeration
replaces both lists with the freshly computed (empty) ones. -/
theorem C7_refresh_fail_fast_witness :
    (update_devices
        { openResult := fun _ _ => .ok (), reports := fun _ => [],
          parseAddress := fun _ => none }
        { devices := [], closed_devices := ["old"], key_path := .Ethereum }
        ([] ++
          { vendor_id := 0x534c, product_id := 1, usage_page := 0xFF00,
            path := "dead", manufacturer_string := none,
            product_string := none, serial_number := none } ::
          [{ vendor_id := 0x534c, product_id := 1, usage_page := 0xFF00,
             path := "after", manufacturer_string := none,
             product_string := none, serial_number := none }]) =
        .error (.Usb "read failed") ∧
      update_devices_post
        { openResult := fun _ _ => .ok (), reports := fun _ => [],
          parseAddress := fun _ => none }
        { devices := [], closed_devices := ["old"], key_path := .Ethereum }
        ([] ++
          { vendor_id := 0x534c, product_id := 1, usage_page := 0xFF00,
            path := "dead", manufacturer_string := none,
            product_string := none, serial_number := none } ::
          [{ vendor_id := 0x534c, product_id := 1, usage_page := 0xFF00,
             path := "after", manufacturer_string := none,
             product_string := none, serial_number := none }]) =
        { devices := [], closed_devices := ["old"], key_path := .Ethereum }) := by
  exact (C7_refresh_fail_fast _ _ [] _ _ _).1 (by decide) (by decide)
    (fun q h => by cases h) (by decide)

/-! ## Theorems: frame codec (C3, C10) -/

theorem getD_append_zeros (l : List Nat) (k i : Nat) :
    (l ++ List.replicate k 0).getD i 0 = l.getD i 0 := by
  rcases Nat.lt_or_ge i l.length with h | h
  · exact List.getD_append _ _ _ _ h
  · rw [List.getD_append_right _ _ _ _ h, List.getD_eq_default _ _ h]
    simp [List.getD, List.getElem?_replicate]
    split <;> rfl

theorem chunk63Aux_fuel :
    ∀ f g (l : List Nat), l.length ≤ f → l.length ≤ g →
      chunk63Aux f l = chunk63Aux g l := by
  intro f
  induction f with
  | zero =>
    intro g l hf _
    have : l = [] := List.eq_nil_of_length_eq_zero (by omega)
    subst this
    cases g <;> rfl
  | succ f ih =>
    intro g l hf hg
    cases l with
    | nil => cases g <;> rfl
    | cons a l' =>
      obtain ⟨g', rfl⟩ : ∃ g', g = g' + 1 :=
        ⟨g - 1, by simp at hg; omega⟩
      simp only [List.length_cons] at hf hg
      simp only [chunk63Aux]
      rw [ih g' ((a :: l').drop 63)
        (by simp only [List.length_drop, List.length_cons]; omega)
        (by simp only [List.length_drop, List.length_cons]; omega)]

theorem chunk63_eq (l : List Nat) (h : l ≠ []) :
    chunk63 l = l.take 63 :: chunk63 (l.drop 63) := by
  cases l with
  | nil => exact absurd rfl h
  | cons a l' =>
    show chunk63Aux (l'.length + 1) (a :: l') = _
    simp only [chunk63Aux]
    rw [chunk63Aux_fuel l'.length ((a :: l').drop 63).length
      ((a :: l').drop 63)
      (by simp only [List.length_drop, List.length_cons]; omega) le_rfl]
    rfl

theorem chunk63_flatten_aux :
    ∀ n (l : List Nat), l.length ≤ n → (chunk63 l).flatten = l := by
  intro n
  induction n with
  | zero =>
    intro l h
    have : l = [] := List.eq_nil_of_length_eq_zero (by omega)
    subst this
    rfl
  | succ n ih =>
    intro l h
    rcases eq_or_ne l [] with rfl | hne
    · rfl
    · rw [chunk63_eq l hne, List.flatten_cons,
        ih (l.drop 63) (by
          have : 0 < l.length := List.length_pos.mpr hne
          simp
          omega),
        List.take_append_drop]

theorem chunk63_flatten (l : List Nat) : (chunk63 l).flatten = l :=
  chunk63_flatten_aux l.length l le_rfl

theorem chunk63_mem_length :
    ∀ n (l : List Nat), l.length ≤ n → 63 ∣ l.length →
      ∀ c ∈ chunk63 l, c.length = 63 := by
  intro n
  induction n with
  | zero =>
    intro l h _ c hc
    have : l = [] := List.eq_nil_of_length_eq_zero (by omega)
    subst this
    simp [chunk63, chunk63Aux] at hc
  | succ n ih =>
    intro l h hdvd c hc
    rcases eq_or_ne l [] with rfl | hne
    · simp [chunk63, chunk63Aux] at hc
    · have hpos : 0 < l.length := List.length_pos.mpr hne
      have h63 : 63 ≤ l.length := by
        obtain ⟨k, hk⟩ := hdvd
        omega
      rw [chunk63_eq l hne] at hc
      rcases List.mem_cons.mp hc with rfl | hc'
      · rw [List.length_take]
        omega
      · exact ih (l.drop 63) (by simp; omega)
          (by obtain ⟨k, hk⟩ := hdvd; exact ⟨k - 1, by simp [hk]; omega⟩)
          c hc'

theorem flatten_const_length (c : Nat) :
    ∀ L : List (List Nat), (∀ x ∈ L, x.length = c) →
      L.flatten.length = c * L.length := by
  intro L
  induction L with
  | nil => intro _; simp
  | cons x L ih =>
    intro h
    rw [List.flatten_cons, List.length_append,
      ih (fun y hy => h y (List.mem_cons_of_mem x hy)),
      h x (List.mem_cons_self x L)]
    simp only [List.length_cons]
    ring

theorem readLoop_ok (msgSize : Nat) :
    ∀ (reports : List (List Nat)) (buf acc : List Nat),
      buf.length = 64 → (∀ r ∈ reports, r.length = 64) →
      msgSize ≤ acc.length + 63 * reports.length →
      readLoop msgSize buf acc reports =
        .ok ((acc ++ (reports.map (fun r => r.drop 1)).flatten).take msgSize) := by
  intro reports
  induction reports with
  | nil =>
    intro buf acc _ _ hbound
    simp only [readLoop, List.map_nil, List.flatten_nil, List.append_nil]
    rw [if_pos (by simpa using hbound)]
  | cons r rs ih =>
    intro buf acc hbuf hlen hbound
    have hr : r.length = 64 := hlen r (List.mem_cons_self r rs)
    by_cases hle : msgSize ≤ acc.length
    · simp only [readLoop]
      rw [if_pos hle, List.take_append_of_le_length hle]
    · simp only [readLoop]
      rw [if_neg hle]
      have hdrop : buf.drop r.length = [] := by
        rw [hr, ← hbuf]
        exact List.drop_length buf
      rw [hdrop, List.append_nil]
      rw [ih r (acc ++ r.drop 1) hr
        (fun x hx => hlen x (List.mem_cons_of_mem r hx))
        (by
          simp only [List.length_append, List.length_drop, hr,
            List.length_cons] at hbound ⊢
          omega)]
      rw [List.map_cons, List.flatten_cons, List.append_assoc]

theorem byte_recon16 (id : Nat) (h : id < 2 ^ 16) :
    (id >>> 8) % 256 % 256 * 256 + (id % 256) % 256 = id := by
  rw [Nat.shiftRight_eq_div_pow]
  omega

theorem byte_recon32 (s : Nat) (h : s < 2 ^ 32) :
    (s >>> 24) % 256 % 256 * 2 ^ 24 + (s >>> 16) % 256 % 256 * 2 ^ 16 +
      (s >>> 8) % 256 % 256 * 2 ^ 8 + (s % 256) % 256 = s := by
  rw [Nat.shiftRight_eq_div_pow, Nat.shiftRight_eq_div_pow,
    Nat.shiftRight_eq_div_pow]
  omega

theorem fromI32_toId (t : MessageType) :
    MessageType.fromI32 t.toId = some t := by
  cases t <;> rfl

theorem toId_lt (t : MessageType) : t.toId < 2 ^ 16 := by
  cases t <;> decide

theorem read_device_response_ok_raw (x3 x4 x5 x6 x7 x8 : Nat)
    (body : List Nat) (rest : List (List Nat)) (hbody : body.length = 55)
    (hrest : ∀ r ∈ rest, r.length = 64) (t : MessageType)
    (ht : MessageType.fromI32 (x3 % 256 * 256 + x4 % 256) = some t)
    (msgSize : Nat)
    (hsz : x5 % 256 * 2 ^ 24 + x6 % 256 * 2 ^ 16 + x7 % 256 * 2 ^ 8 +
      x8 % 256 = msgSize)
    (hbound : msgSize ≤ 55 + 63 * rest.length) :
    read_device_response
      ((63 :: 35 :: 35 :: x3 :: x4 :: x5 :: x6 :: x7 :: x8 :: body) ::
        rest) =
      .ok (t,
        (body ++ (rest.map (fun r => r.drop 1)).flatten).take msgSize) := by
  have h64 : (63 :: 35 :: 35 :: x3 :: x4 :: x5 :: x6 :: x7 :: x8 ::
      body).length = 64 := by
    simp [hbody]
  simp only [read_device_response, h64, Nat.sub_self, List.replicate_zero,
    List.append_nil]
  rw [if_neg (by
    push_neg
    refine ⟨by omega, rfl, rfl, rfl⟩)]
  have hg3 : (63 :: 35 :: 35 :: x3 :: x4 :: x5 :: x6 :: x7 :: x8 ::
      body).getD 3 0 = x3 := rfl
  have hg4 : (63 :: 35 :: 35 :: x3 :: x4 :: x5 :: x6 :: x7 :: x8 ::
      body).getD 4 0 = x4 := rfl
  have hg5 : (63 :: 35 :: 35 :: x3 :: x4 :: x5 :: x6 :: x7 :: x8 ::
      body).getD 5 0 = x5 := rfl
  have hg6 : (63 :: 35 :: 35 :: x3 :: x4 :: x5 :: x6 :: x7 :: x8 ::
      body).getD 6 0 = x6 := rfl
  have hg7 : (63 :: 35 :: 35 :: x3 :: x4 :: x5 :: x6 :: x7 :: x8 ::
      body).getD 7 0 = x7 := rfl
  have hg8 : (63 :: 35 :: 35 :: x3 :: x4 :: x5 :: x6 :: x7 :: x8 ::
      body).getD 8 0 = x8 := rfl
  have hdp : (63 :: 35 :: 35 :: x3 :: x4 :: x5 :: x6 :: x7 :: x8 ::
      body).drop 9 = body := rfl
  rw [hg3, hg4, hg5, hg6, hg7, hg8, hdp, ht, hsz]
  rw [readLoop_ok msgSize rest _ body h64 hrest (by omega)]

/-- C3: for every message type and payload, decoding the report stream
produced by encoding returns exactly the original (type, payload) pair:
the encoder emits the ##-magic / big-endian type / big-endian length
header, pads the body to a multiple of 63 and splits it into `?`-marked
65-byte reports, and the decoder reassembles the reports and truncates to
the declared length.  (The decoder sees each report without its report-id
placeholder byte, as the HID read delivers it.) -/
theorem C3_frame_roundtrip (t : MessageType) (payload : List Nat)
    (hlen : payload.length < 2 ^ 32) :
    read_device_response
      ((send_device_message t.toId payload).map (fun r => r.drop 1)) =
      .ok (t, payload) := by
  have hrecon16 : MessageType.fromI32
      ((t.toId >>> 8) % 256 % 256 * 256 + t.toId % 256 % 256) = some t := by
    rw [byte_recon16 t.toId (toId_lt t)]
    exact fromI32_toId t
  have hrecon32 := byte_recon32 payload.length hlen
  simp only [send_device_message]
  rw [List.map_map]
  have hcomp : ((fun r => List.drop 1 r) ∘ fun c => (0 : Nat) :: 63 :: c) =
      fun c => 63 :: c := by
    funext c
    rfl
  rw [hcomp]
  have hLen : (35 :: 35 :: (t.toId >>> 8) % 256 :: t.toId % 256 ::
      (payload.length >>> 24) % 256 :: (payload.length >>> 16) % 256 ::
      (payload.length >>> 8) % 256 :: payload.length % 256 ::
      payload).length = payload.length + 8 := by
    simp
  rw [hLen]
  -- abbreviate the padding length and record its arithmetic facts
  have hP : pad63 (payload.length + 8) =
      (63 - (payload.length + 8) % 63) % 63 := rfl
  have hsplit : (35 :: 35 :: (t.toId >>> 8) % 256 :: t.toId % 256 ::
      (payload.length >>> 24) % 256 :: (payload.length >>> 16) % 256 ::
      (payload.length >>> 8) % 256 :: payload.length % 256 :: payload) =
      [35, 35, (t.toId >>> 8) % 256, t.toId % 256,
        (payload.length >>> 24) % 256, (payload.length >>> 16) % 256,
        (payload.length >>> 8) % 256, payload.length % 256] ++ payload := rfl
  rw [hsplit, List.append_assoc]
  -- now the padded body is hdr8 ++ tail with tail := payload ++ padding
  have htail : (payload ++
      List.replicate (pad63 (payload.length + 8)) 0).length =
      payload.length + pad63 (payload.length + 8) := by
    simp
  have htail55 : 55 ≤ payload.length + pad63 (payload.length + 8) := by
    omega
  have hne : ([35, 35, (t.toId >>> 8) % 256, t.toId % 256,
      (payload.length >>> 24) % 256, (payload.length >>> 16) % 256,
      (payload.length >>> 8) % 256, payload.length % 256] ++
      (payload ++ List.replicate (pad63 (payload.length + 8)) 0)) ≠ [] := by
    simp
  rw [chunk63_eq _ hne]
  simp only [List.map_cons]
  have htake : ([35, 35, (t.toId >>> 8) % 256, t.toId % 256,
      (payload.length >>> 24) % 256, (payload.length >>> 16) % 256,
      (payload.length >>> 8) % 256, payload.length % 256] ++
      (payload ++ List.replicate (pad63 (payload.length + 8)) 0)).take 63 =
      35 :: 35 :: (t.toId >>> 8) % 256 :: t.toId % 256 ::
      (payload.length >>> 24) % 256 :: (payload.length >>> 16) % 256 ::
      (payload.length >>> 8) % 256 :: payload.length % 256 ::
      ((payload ++ List.replicate (pad63 (payload.length + 8)) 0).take 55) := by
    rw [List.take_append_eq_append_take,
      List.take_of_length_le (by simp : ([35, 35, (t.toId >>> 8) % 256,
        t.toId % 256, (payload.length >>> 24) % 256,
        (payload.length >>> 16) % 256, (payload.length >>> 8) % 256,
        payload.length % 256] : List Nat).length ≤ 63)]
    simp
  have hdrop : ([35, 35, (t.toId >>> 8) % 256, t.toId % 256,
      (payload.length >>> 24) % 256, (payload.length >>> 16) % 256,
      (payload.length >>> 8) % 256, payload.length % 256] ++
      (payload ++ List.replicate (pad63 (payload.length + 8)) 0)).drop 63 =
      (payload ++ List.replicate (pad63 (payload.length + 8)) 0).drop 55 := by
    rw [List.drop_append_eq_append_drop,
      List.drop_of_length_le (by simp : ([35, 35, (t.toId >>> 8) % 256,
        t.toId % 256, (payload.length >>> 24) % 256,
        (payload.length >>> 16) % 256, (payload.length >>> 8) % 256,
        payload.length % 256] : List Nat).length ≤ 63)]
    simp
  rw [htake, hdrop]
  have hdvd : 63 ∣ ((payload ++
      List.replicate (pad63 (payload.length + 8)) 0).drop 55).length := by
    simp only [List.length_drop, htail]
    omega
  have hrest : ∀ r ∈ (chunk63 ((payload ++
      List.replicate (pad63 (payload.length + 8)) 0).drop 55)).map
      (fun c => (63 : Nat) :: c), r.length = 64 := by
    intro r hr
    obtain ⟨c, hc, rfl⟩ := List.mem_map.mp hr
    have := chunk63_mem_length _ _ le_rfl hdvd c hc
    simp [this]
  have hcount : 63 * (chunk63 ((payload ++
      List.replicate (pad63 (payload.length + 8)) 0).drop 55)).length =
      ((payload ++
        List.replicate (pad63 (payload.length + 8)) 0).drop 55).length := by
    rw [← flatten_const_length 63 _ (chunk63_mem_length _ _ le_rfl hdvd),
      chunk63_flatten]
  have hbody : ((payload ++
      List.replicate (pad63 (payload.length + 8)) 0).take 55).length = 55 := by
    rw [List.length_take, htail]
    omega
  have hbound : payload.length ≤ 55 + 63 * ((chunk63 ((payload ++
      List.replicate (pad63 (payload.length + 8)) 0).drop 55)).map
      (fun c => (63 : Nat) :: c)).length := by
    rw [List.length_map]
    simp only [List.length_drop, htail] at hcount
    omega
  refine Eq.trans (read_device_response_ok_raw ((t.toId >>> 8) % 256)
    (t.toId % 256) ((payload.length >>> 24) % 256)
    ((payload.length >>> 16) % 256) ((payload.length >>> 8) % 256)
    (payload.length % 256)
    ((payload ++ List.replicate (pad63 (payload.length + 8)) 0).take 55)
    ((chunk63 ((payload ++
      List.replicate (pad63 (payload.length + 8)) 0).drop 55)).map
      (fun c => (63 : Nat) :: c))
    hbody hrest t hrecon16 payload.length hrecon32 hbound) ?_
  have hmm2 : ((chunk63 ((payload ++
      List.replicate (pad63 (payload.length + 8)) 0).drop 55)).map
      (fun c => (63 : Nat) :: c)).map (fun r => r.drop 1) =
      chunk63 ((payload ++
        List.replicate (pad63 (payload.length + 8)) 0).drop 55) := by
    rw [List.map_map]
    have hcid : ((fun r => List.drop 1 r) ∘ fun c => (63 : Nat) :: c) =
        fun c => c := by
      funext c
      rfl
    rw [hcid, List.map_id']
  rw [hmm2, chunk63_flatten, List.take_append_drop, List.take_left' rfl]

/-- C3 witness: a concrete round trip. -/
theorem C3_frame_roundtrip_witness :
    read_device_response
      ((send_device_message MessageType.EthereumTxRequest.toId
        [1, 2, 3]).map (fun r => r.drop 1)) =
      .ok (MessageType.EthereumTxRequest, [1, 2, 3]) :=
  C3_frame_roundtrip MessageType.EthereumTxRequest [1, 2, 3] (by decide)

/-- C10: decoding fails with the protocol error not only on a bad
`?`,`#`,`#` marker sequence but also whenever the first report delivers
fewer than 9 bytes (whatever its content), and whenever the two-byte
big-endian message-type field is not a known enumeration value even though
the markers are valid. -/
theorem C10_decode_error_paths (first : List Nat) (rest : List (List Nat)) :
    (first.length < 9 →
      read_device_response (first :: rest) =
        .error (.Protocol "Unexpected wire response from Trezor Device")) ∧
    (first.getD 0 0 ≠ 63 ∨ first.getD 1 0 ≠ 35 ∨ first.getD 2 0 ≠ 35 →
      read_device_response (first :: rest) =
        .error (.Protocol "Unexpected wire response from Trezor Device")) ∧
    (9 ≤ first.length → first.getD 0 0 = 63 → first.getD 1 0 = 35 →
      first.getD 2 0 = 35 →
      MessageType.fromI32
        (first.getD 3 0 % 256 * 256 + first.getD 4 0 % 256) = none →
      read_device_response (first :: rest) =
        .error (.Protocol "Unexpected wire response from Trezor Device")) := by
  refine ⟨?_, ?_, ?_⟩
  · intro h
    simp only [read_device_response]
    rw [if_pos (Or.inl h)]
  · intro h
    simp only [read_device_response, getD_append_zeros]
    rw [if_pos (Or.inr h)]
  · intro h9 h0 h1 h2 hf
    simp only [read_device_response, getD_append_zeros]
    rw [if_neg (by push_neg; exact ⟨h9, h0, h1, h2⟩), hf]

/-- C10 witness: a 2-byte first report, a 64-byte all-zero report (bad
markers), and a well-marked report carrying the unknown type id 0xFFFF,
each decoded to the protocol error. -/
theorem C10_decode_error_paths_witness :
    read_device_response [[63, 35]] =
      .error (.Protocol "Unexpected wire response from Trezor Device") ∧
    read_device_response [List.replicate 64 0] =
      .error (.Protocol "Unexpected wire response from Trezor Device") ∧
    read_device_response [[63, 35, 35, 255, 255, 0, 0, 0, 0]] =
      .error (.Protocol "Unexpected wire response from Trezor Device") := by
  refine ⟨(C10_decode_error_paths [63, 35] []).1 (by decide),
    (C10_decode_error_paths (List.replicate 64 0) []).2.1 ?_,
    (C10_decode_error_paths [63, 35, 35, 255, 255, 0, 0, 0, 0] []).2.2
      (by decide) (by decide) (by decide) (by decide) (by decide)⟩
  left
  decide

end Trezor
